import Mathlib

/-!
Verification of the JumpNet Capability Enumeration Protocol (CEP) engine
for Arduino / ESP32, a shallow embedding of src/clients/arduino/cep.h and
the chipset descriptor headers under src/clients/arduino/chipsets/.

The embedding follows the source closely:
the bus probe (Wire.beginTransmission / endTransmission) is an external
collaborator and is modelled as a parameter of type Nat to Bool; Arduino
String values are Lean String values; zero-terminated or null-terminated
C arrays are Lean lists of the entries that precede the terminator; the
imperative string-building loops of the source are embedded as recursive
functions threading the exact loop state (accumulated string, first-item
flag, found-address array, write index).
-/

-- ── String infrastructure ─────────────────────────────────────────────────────

/-- Substring occurrence, used to state what a rendered fragment contains:
the pattern occurs contiguously somewhere in the string. -/
def strHas (s pat : String) : Prop :=
  ∃ p q, s = p ++ (pat ++ q)

theorem strHas_intro (s p pat q : String) (h : s = p ++ (pat ++ q)) :
    strHas s pat := ⟨p, q, h⟩

/-- Boolean check that the first list is a prefix of the second. -/
def chPre : List Char → List Char → Bool
  | [], _ => true
  | _ :: _, [] => false
  | a :: as, b :: bs => a == b && chPre as bs

/-- Boolean check that the first list occurs contiguously inside the second. -/
def occursIn (pat : List Char) : List Char → Bool
  | [] => chPre pat []
  | c :: rest => chPre pat (c :: rest) || occursIn pat rest

theorem chPre_self_append (pat t : List Char) : chPre pat (pat ++ t) = true := by
  induction pat with
  | nil => rfl
  | cons a as ih => simp [chPre, ih]

theorem occursIn_self_append (pat t : List Char) : occursIn pat (pat ++ t) = true := by
  cases pat with
  | nil => cases t with
    | nil => rfl
    | cons c r => simp [occursIn, chPre]
  | cons c cs =>
      show occursIn (c :: cs) ((c :: cs) ++ t) = true
      rw [List.cons_append]
      simp only [occursIn]
      rw [← List.cons_append, chPre_self_append]
      simp

theorem occursIn_cons (pat : List Char) (c : Char) (s : List Char)
    (h : occursIn pat s = true) : occursIn pat (c :: s) = true := by
  simp only [occursIn, h]
  simp

theorem occursIn_append_left (pat p s : List Char)
    (h : occursIn pat s = true) : occursIn pat (p ++ s) = true := by
  induction p with
  | nil => simpa using h
  | cons c cs ih => exact occursIn_cons pat c (cs ++ s) ih

/-- Soundness bridge: a witnessed occurrence makes the boolean check true,
so a false boolean check refutes `strHas`. -/
theorem occursIn_of_strHas (s pat : String) (h : strHas s pat) :
    occursIn pat.data s.data = true := by
  obtain ⟨p, q, heq⟩ := h
  subst heq
  rw [String.data_append, String.data_append]
  exact occursIn_append_left _ _ _ (occursIn_self_append _ _)

theorem strHas_append_right (s t pat : String) (h : strHas s pat) :
    strHas (s ++ t) pat := by
  obtain ⟨p, q, heq⟩ := h
  exact ⟨p, q ++ t, by rw [heq, String.append_assoc, String.append_assoc]⟩

theorem strHas_append_left (s t pat : String) (h : strHas t pat) :
    strHas (s ++ t) pat := by
  obtain ⟨p, q, heq⟩ := h
  exact ⟨s ++ p, q, by rw [heq, String.append_assoc]⟩

-- ── Hexadecimal rendering (snprintf with format 0x%02x) ───────────────────────

/-- Single lowercase hexadecimal digit character, as printf renders one. -/
def hexDigit (d : Nat) : Char :=
  if d < 10 then Char.ofNat (48 + d) else Char.ofNat (87 + d)

/-- Two-digit lowercase hexadecimal rendering: what snprintf with format
%02x produces for a uint8_t value (all scanned addresses are below 127). -/
def hex2 (n : Nat) : String :=
  String.mk [hexDigit (n / 16 % 16), hexDigit (n % 16)]

/-- The 0x-prefixed address form produced by snprintf with format 0x%02x. -/
def hex0x (n : Nat) : String :=
  "0x" ++ hex2 n

-- ── Chipset plugin interface (struct CepChipsetDescriptor) ────────────────────

/-- CepChipsetDescriptor from cep.h lines 28-37: name, zero-terminated i2c
address list (modelled as the list of entries before the terminator),
null-terminated provides list, bus kind, and the virtual describe hook whose
base-class implementation returns the empty string (cep.h line 36). -/
structure CepChipsetDescriptor where
  name : String
  i2cAddresses : List Nat
  provides : List String
  bus : String
  describe : Nat → Nat → String := fun _ _ => ""

/-- MAX_CHIPSETS from cep.h line 43. -/
def MAX_CHIPSETS : Nat := 16

/-- The CEP registry state: the _chipsets array together with _numChipsets,
modelled as the list of registered descriptors in registration order. -/
structure CEP where
  chipsets : List CepChipsetDescriptor

/-- registerChipset from cep.h lines 48-52: append the descriptor if the
registry is below capacity, otherwise do nothing.  The C++ function returns
void, so the registry state is the only caller-observable result. -/
def registerChipset (cep : CEP) (chip : CepChipsetDescriptor) : CEP :=
  if cep.chipsets.length < MAX_CHIPSETS then ⟨cep.chipsets ++ [chip]⟩ else cep

/-- The registry query inlined in cep.h lines 164-167: descriptors in
registration order, and within one descriptor one match per address-list
entry equal to the queried address. -/
def matchesAt (chips : List CepChipsetDescriptor) (a : Nat) : List CepChipsetDescriptor :=
  chips.flatMap fun c => ((c.i2cAddresses.filter fun k => k == a).map fun _ => c)

-- ── Generic sensor fragment (cep.h lines 172-187) ─────────────────────────────

/-- The provides-rendering loop of cep.h lines 180-185, threading the
accumulated string and the first-item flag fp. -/
def providesLoop : List String → String → Bool → String
  | [], s, _ => s
  | p :: rest, s, fp =>
      providesLoop rest (s ++ (if fp then "" else ",") ++ ("\"" ++ p ++ "\"")) false

/-- The generic sensor fragment synthesized by cep.h lines 173-186. -/
def genericFragment (chip : CepChipsetDescriptor) (addr : Nat) : String :=
  "\x7b\"type\":\"sensor\"" ++
    (",\"chipset\":\"" ++ chip.name ++ "\"") ++
    ",\"bus\":\"i2c\",\"bus_id\":0" ++
    (",\"address\":\"" ++ hex0x addr ++ "\"") ++
    ",\"provides\":[" ++ providesLoop chip.provides "" true ++ "]\x7d"

/-- The per-match fragment choice of cep.h lines 168-187: call the describe
hook with bus id 0 and the found address, use its result verbatim when
non-empty, otherwise synthesize the generic fragment. -/
def renderFragment (chip : CepChipsetDescriptor) (addr : Nat) : String :=
  let custom := chip.describe 0 addr
  if custom.length > 0 then custom else genericFragment chip addr

-- ── Comma-joining (the first-item-flag idiom of the source) ───────────────────

/-- State-threading comma join: the accumulated string together with the
first-item flag, exactly the idiom every output loop of cep.h uses. -/
def joinAux : List String → String × Bool → String × Bool
  | [], st => st
  | x :: rest, (s, first) => joinAux rest (s ++ (if first then "" else ",") ++ x, false)

/-- Comma-separated join of a list of strings. -/
def commaJoin (l : List String) : String :=
  (joinAux l ("", true)).1

theorem joinAux_append (l₁ l₂ : List String) (st : String × Bool) :
    joinAux (l₁ ++ l₂) st = joinAux l₂ (joinAux l₁ st) := by
  induction l₁ generalizing st with
  | nil => rfl
  | cons x rest ih => cases st with
    | mk s first => simp [joinAux, ih]

theorem joinAux_fst_extends (l : List String) (s : String) (first : Bool) :
    ∃ t, (joinAux l (s, first)).1 = s ++ t := by
  induction l generalizing s first with
  | nil => exact ⟨"", (String.append_empty s).symm⟩
  | cons x rest ih =>
      obtain ⟨t, ht⟩ := ih (s ++ (if first then "" else ",") ++ x) false
      exact ⟨(if first then "" else ",") ++ x ++ t, by
        rw [joinAux, ht]
        simp [String.append_assoc]⟩

theorem joinAux_has (l : List String) (x : String) (hx : x ∈ l) :
    ∀ s first, strHas (joinAux l (s, first)).1 x := by
  induction l with
  | nil => cases hx
  | cons y rest ih =>
      intro s first
      rcases List.mem_cons.mp hx with h | h
      · subst h
        rw [joinAux]
        obtain ⟨t, ht⟩ := joinAux_fst_extends rest (s ++ (if first then "" else ",") ++ x) false
        exact ⟨s ++ (if first then "" else ","), t, by rw [ht, String.append_assoc]⟩
      · simp only [joinAux]
        exact ih h _ _

-- ── The chipset-matching loops (cep.h lines 162-194) ──────────────────────────

/-- Innermost loop of cep.h lines 166-191: walk one descriptor's address
list; on each entry equal to the found address, compute the fragment for
that match and append it to the sensors string under the firstSensor flag. -/
def addrLoop (chip : CepChipsetDescriptor) (a : Nat) :
    List Nat → String × Bool → String × Bool
  | [], st => st
  | k :: rest, (sensors, firstSensor) =>
      if k == a then
        let custom := chip.describe 0 a
        let s := if custom.length > 0 then custom else genericFragment chip a
        addrLoop chip a rest (sensors ++ (if firstSensor then "" else ",") ++ s, false)
      else
        addrLoop chip a rest (sensors, firstSensor)

/-- Middle loop of cep.h lines 164-193: walk the registered chipsets in
registration order. -/
def chipLoop (a : Nat) : List CepChipsetDescriptor → String × Bool → String × Bool
  | [], st => st
  | c :: rest, st => chipLoop a rest (addrLoop c a c.i2cAddresses st)

/-- Outer loop of cep.h lines 163-194: walk the found addresses in scan
order. -/
def foundLoop (chips : List CepChipsetDescriptor) : List Nat → String × Bool → String × Bool
  | [], st => st
  | a :: rest, st => foundLoop chips rest (chipLoop a chips st)

/-- The sensors string assembled by the matching loops, starting from the
empty string with firstSensor true (cep.h lines 62 and 162). -/
def sensorsString (chips : List CepChipsetDescriptor) (found : List Nat) : String :=
  (foundLoop chips found ("", true)).1

/-- Declarative resolver output: the ordered list of fragments, outer
level ordered by the scan result, inner level ordered by registration
order, one fragment per matching address-list entry. -/
def resolveList (chips : List CepChipsetDescriptor) (found : List Nat) : List String :=
  found.flatMap fun a =>
    chips.flatMap fun c =>
      ((c.i2cAddresses.filter fun k => k == a).map fun _ => renderFragment c a)

theorem addrLoop_eq (chip : CepChipsetDescriptor) (a : Nat) (ks : List Nat)
    (st : String × Bool) :
    addrLoop chip a ks st =
      joinAux ((ks.filter fun k => k == a).map fun _ => renderFragment chip a) st := by
  induction ks generalizing st with
  | nil => rfl
  | cons k rest ih =>
      cases st with
      | mk sensors firstSensor =>
          by_cases hk : (k == a) = true
          · simp [addrLoop, hk, List.filter_cons, joinAux, renderFragment, ih]
          · simp [addrLoop, hk, List.filter_cons, ih]

theorem chipLoop_eq (a : Nat) (cs : List CepChipsetDescriptor) (st : String × Bool) :
    chipLoop a cs st =
      joinAux (cs.flatMap fun c =>
        ((c.i2cAddresses.filter fun k => k == a).map fun _ => renderFragment c a)) st := by
  induction cs generalizing st with
  | nil => rfl
  | cons c rest ih =>
      rw [chipLoop, List.flatMap_cons, joinAux_append, addrLoop_eq, ih]

theorem foundLoop_eq (chips : List CepChipsetDescriptor) (found : List Nat)
    (st : String × Bool) :
    foundLoop chips found st = joinAux (resolveList chips found) st := by
  induction found generalizing st with
  | nil => rfl
  | cons a rest ih =>
      rw [foundLoop, resolveList, List.flatMap_cons, joinAux_append, chipLoop_eq, ih]
      rfl

/-- The imperative sensors string is the comma join of the declarative
ordered fragment list. -/
theorem sensorsString_eq (chips : List CepChipsetDescriptor) (found : List Nat) :
    sensorsString chips found = commaJoin (resolveList chips found) := by
  rw [sensorsString, foundLoop_eq, commaJoin]

-- ── The I2C scan loop (cep.h lines 134-159) ───────────────────────────────────

/-- State of the scan loop of cep.h lines 137-155: the found array (with
nFound equal to its length), the index used by each write into the found
array, the devices string being built, and its first-item flag. -/
structure ScanState where
  found : List Nat
  writes : List Nat
  devices : String
  first : Bool

/-- The probe loop of cep.h lines 144-155, parameterized by the transport's
acknowledgement behaviour (Wire.endTransmission returning zero).  On each
acknowledged address the code writes the address into the found array at
index nFound (recorded in writes) and appends the quoted hex form to the
devices string under the first flag. -/
def scanLoop (ack : Nat → Bool) : List Nat → ScanState → ScanState
  | [], st => st
  | a :: rest, st =>
      if ack a then
        scanLoop ack rest
          { found := st.found ++ [a]
            writes := st.writes ++ [st.found.length]
            devices := st.devices ++ (if st.first then "" else ",") ++
              ("\"" ++ hex0x a ++ "\"")
            first := false }
      else
        scanLoop ack rest st

/-- The probed address sequence of cep.h line 144: addr from 1 while below
127, in ascending order. -/
def scanAddrs : List Nat := List.range' 1 126

/-- The scan of cep.h lines 134-156, from the initial state (empty found
array, devices string opened with a bracket modelled separately, first
flag true). -/
def scanI2C (ack : Nat → Bool) : ScanState :=
  scanLoop ack scanAddrs ⟨[], [], "", true⟩

/-- The found-address array contents after the scan. -/
def scanFound (ack : Nat → Bool) : List Nat := (scanI2C ack).found

/-- The indices written into the found array during the scan. -/
def scanWrites (ack : Nat → Bool) : List Nat := (scanI2C ack).writes

/-- The devices JSON list of cep.h lines 137 and 156: bracket, the comma
joined quoted hex addresses, bracket. -/
def devicesStr (ack : Nat → Bool) : String := "[" ++ (scanI2C ack).devices ++ "]"

/-- The capacity of the found buffer, cep.h line 141 (uint8_t found[64]). -/
def foundBufCapacity : Nat := 64

theorem scanLoop_spec (ack : Nat → Bool) (l : List Nat) (st : ScanState) :
    (scanLoop ack l st).found = st.found ++ l.filter ack ∧
    (scanLoop ack l st).writes =
      st.writes ++ List.range' st.found.length (l.filter ack).length ∧
    (scanLoop ack l st).devices =
      (joinAux ((l.filter ack).map fun a => "\"" ++ hex0x a ++ "\"")
        (st.devices, st.first)).1 := by
  induction l generalizing st with
  | nil => simp [scanLoop, joinAux]
  | cons a rest ih =>
      by_cases ha : ack a = true
      · have h := ih { found := st.found ++ [a]
                       writes := st.writes ++ [st.found.length]
                       devices := st.devices ++ (if st.first then "" else ",") ++
                         ("\"" ++ hex0x a ++ "\"")
                       first := false }
        refine ⟨?_, ?_, ?_⟩
        · rw [scanLoop, if_pos ha, h.1]
          simp [List.filter_cons, ha]
        · rw [scanLoop, if_pos ha, h.2.1]
          simp [List.filter_cons, ha, List.range'_succ, List.length_append]
        · rw [scanLoop, if_pos ha, h.2.2]
          simp [List.filter_cons, ha, joinAux]
      · have h := ih st
        rw [scanLoop, if_neg ha]
        simpa [List.filter_cons, ha] using h

/-- The found array is the ascending filter of the probed range by the
acknowledgement predicate. -/
theorem scanFound_eq (ack : Nat → Bool) : scanFound ack = scanAddrs.filter ack := by
  have h := scanLoop_spec ack scanAddrs ⟨[], [], "", true⟩
  simpa [scanFound, scanI2C] using h.1

/-- The write indices into the found buffer are zero up to the number of
acknowledged addresses. -/
theorem scanWrites_eq (ack : Nat → Bool) :
    scanWrites ack = List.range (scanFound ack).length := by
  have h := scanLoop_spec ack scanAddrs ⟨[], [], "", true⟩
  rw [scanWrites, scanI2C, h.2.1, scanFound_eq]
  simp [List.range_eq_range']

/-- The devices JSON list is the bracketed comma join of the quoted hex
forms of the found addresses. -/
theorem devicesStr_eq (ack : Nat → Bool) :
    devicesStr ack =
      "[" ++ commaJoin ((scanFound ack).map fun a => "\"" ++ hex0x a ++ "\"") ++ "]" := by
  have h := scanLoop_spec ack scanAddrs ⟨[], [], "", true⟩
  rw [devicesStr, scanI2C, h.2.2, scanFound_eq, commaJoin]

-- ── Platform facts and document assembly (cep.h lines 56-130, 197-228) ────────

/-- Platform facts consumed by the builder: the compile-time ESP32 flag and
the values the platform APIs report (ESP.getCpuFreqMHz, ESP.getHeapSize,
ESP.getFlashChipSize, ESP.getEfuseMac, esp_read_mac, ARDUINO_BOARD and the
ESP_ARDUINO_VERSION numbers). -/
structure Platform where
  esp32 : Bool
  cpuFreqMHz : Nat
  heapSize : Nat
  flashChipSize : Nat
  efuseMac : Nat
  wifiMac : List Nat
  board : String
  fwMajor : Nat
  fwMinor : Nat
  fwPatch : Nat

/-- Six-byte MAC rendering of cep.h lines 107-113: colon-separated
two-digit lowercase hex of each byte of the efuse MAC, high byte first. -/
def efuseMacStr (mac : Nat) : String :=
  hex2 (mac / 2 ^ 40 % 256) ++ ":" ++ hex2 (mac / 2 ^ 32 % 256) ++ ":" ++
    hex2 (mac / 2 ^ 24 % 256) ++ ":" ++ hex2 (mac / 2 ^ 16 % 256) ++ ":" ++
    hex2 (mac / 2 ^ 8 % 256) ++ ":" ++ hex2 (mac % 256)

/-- Device id of cep.h lines 103-118: the efuse MAC string on ESP32, a
board-derived constant otherwise. -/
def deviceId (p : Platform) : String :=
  if p.esp32 then efuseMacStr p.efuseMac else "arduino-" ++ p.board

/-- Device identity object of cep.h lines 90-101. -/
def deviceObject (p : Platform) : String :=
  "\x7b" ++
    ("\"id\":\"" ++ deviceId p ++ "\",") ++
    "\"class\":\"microcontroller\"," ++
    "\"transport\":\"serial\"," ++
    ("\"model\":\"" ++ p.board ++ "\",") ++
    ("\"firmware\":\"" ++ toString p.fwMajor ++ "." ++ toString p.fwMinor ++ "." ++
      toString p.fwPatch ++ "\"") ++
  "\x7d"

/-- Compute entry of cep.h lines 122-130: the mhz, ram_kb and flash_kb
fields are present only on ESP32. -/
def computeEntry (p : Platform) : String :=
  "\x7b\"type\":\"compute\"" ++
    (if p.esp32 then
      ",\"mhz\":" ++ toString p.cpuFreqMHz ++
        ",\"ram_kb\":" ++ toString (p.heapSize / 1024) ++
        ",\"flash_kb\":" ++ toString (p.flashChipSize / 1024)
    else "") ++ "\x7d"

/-- The i2c bus-summary entry appended by cep.h lines 158-159; note the
string starts with a comma in the source. -/
def i2cCapsEntry (devices : String) : String :=
  ",\x7b\"type\":\"i2c\",\"buses\":[\x7b\"id\":0,\"sda\":21,\"scl\":22," ++
    "\"freq_hz\":100000,\"devices_found\":" ++ devices ++ "\x7d]\x7d"

/-- GPIO entry of cep.h lines 199-206. -/
def gpioEntry (p : Platform) : String :=
  if p.esp32 then
    ",\x7b\"type\":\"gpio\",\"digital_out\":[2,4,5,12,13,14,15,16,17,18,19,21,22,23,25,26,27,32,33]" ++
      ",\"digital_in\":[32,33,34,35,36,39]\x7d"
  else
    ",\x7b\"type\":\"gpio\"\x7d"

/-- ADC entry of cep.h lines 210-214: present only on ESP32. -/
def adcEntry (p : Platform) : String :=
  if p.esp32 then
    ",\x7b\"type\":\"adc\",\"pins\":[32,33,34,35,36,39],\"resolution\":12,\"channels\":6\x7d"
  else ""

/-- Network entry of cep.h lines 219-227: the station MAC bytes rendered
colon-separated in two-digit lowercase hex. -/
def networkEntry (p : Platform) : String :=
  "\x7b\"type\":\"network\",\"interfaces\":[\x7b\"kind\":\"wifi\",\"mac\":\"" ++
    hex2 (p.wifiMac.getD 0 0 % 256) ++ ":" ++ hex2 (p.wifiMac.getD 1 0 % 256) ++ ":" ++
    hex2 (p.wifiMac.getD 2 0 % 256) ++ ":" ++ hex2 (p.wifiMac.getD 3 0 % 256) ++ ":" ++
    hex2 (p.wifiMac.getD 4 0 % 256) ++ ":" ++ hex2 (p.wifiMac.getD 5 0 % 256) ++
    "\"\x7d]\x7d"

/-- getCapabilitiesJSON from cep.h lines 56-82, step by step: compute entry,
an unconditional comma, the i2c entry (itself comma-prefixed), the sensors
string when non-empty, GPIO, ADC, and on ESP32 a comma and the network
entry; finally the device object and capabilities array are wrapped. -/
def getCapabilitiesJSON (p : Platform) (cep : CEP) (ack : Nat → Bool) : String :=
  let caps0 := "" ++ computeEntry p
  let caps1 := caps0 ++ ","
  let caps2 := caps1 ++ i2cCapsEntry (devicesStr ack)
  let sensors := sensorsString cep.chipsets (scanFound ack)
  let caps3 := if sensors.length > 0 then caps2 ++ "," ++ sensors else caps2
  let caps4 := caps3 ++ gpioEntry p
  let caps5 := caps4 ++ adcEntry p
  let caps6 := if p.esp32 then caps5 ++ "," ++ networkEntry p else caps5
  "\x7b\"device\":" ++ deviceObject p ++ ",\"capabilities\":[" ++ caps6 ++ "]\x7d"

-- ── The shipped chipset descriptors ───────────────────────────────────────────

/-- BME280_Chip from src/clients/arduino/chipsets/bme280_chip.h: addresses
0x76 and 0x77 (zero terminator dropped), provides temperature, humidity,
pressure; no describe override. -/
def BME280_Chip : CepChipsetDescriptor :=
  { name := "bme280"
    i2cAddresses := [0x76, 0x77]
    provides := ["temperature", "humidity", "pressure"]
    bus := "i2c" }

/-- MPU6050_Chip from src/clients/arduino/chipsets/mpu6050_chip.h. -/
def MPU6050_Chip : CepChipsetDescriptor :=
  { name := "mpu6050"
    i2cAddresses := [0x68, 0x69]
    provides := ["acceleration", "gyroscope", "temperature"]
    bus := "i2c" }

/-- The describe override of SSD1306ChipDescriptor in
src/clients/arduino/chipsets/ssd1306_chip.h lines 21-30. -/
def ssd1306Describe (busId : Nat) (address : Nat) : String :=
  "\x7b\"type\":\"display\"" ++
    ",\"chipset\":\"ssd1306\"" ++
    (",\"bus\":\"i2c\",\"bus_id\":" ++ toString busId) ++
    (",\"address\":\"" ++ hex0x address ++ "\"") ++
    ",\"width_px\":128,\"height_px\":64,\"color\":false\x7d"

/-- SSD1306_Chip from src/clients/arduino/chipsets/ssd1306_chip.h. -/
def SSD1306_Chip : CepChipsetDescriptor :=
  { name := "ssd1306"
    i2cAddresses := [0x3C, 0x3D]
    provides := ["display"]
    bus := "i2c"
    describe := ssd1306Describe }

-- ── Helper lemmas for the claim theorems ──────────────────────────────────────

theorem strEqEmpty_iff_data (s : String) : s = "" ↔ s.data = [] := by
  constructor
  · intro h; rw [h]
  · intro h; cases s with
    | mk d => cases h; rfl

theorem strLenPos_iff (s : String) : 0 < s.length ↔ s ≠ "" := by
  have hlen : s.length = s.data.length := rfl
  rw [hlen, List.length_pos]
  exact (not_congr (strEqEmpty_iff_data s)).symm

theorem providesLoop_eq (l : List String) (s : String) (fp : Bool) :
    providesLoop l s fp = (joinAux (l.map fun p => "\"" ++ p ++ "\"") (s, fp)).1 := by
  induction l generalizing s fp with
  | nil => rfl
  | cons p rest ih => simp [providesLoop, joinAux, ih]

theorem hexDigit_mem_lower (d : Nat) (hd : d < 16) :
    hexDigit d ∈ ("0123456789abcdef").data := by
  revert hd
  revert d
  decide

-- ── Auxiliary concrete inputs used by the claims ──────────────────────────────

/-- A registration sequence of distinct descriptors: the n-th carries the
single address n. -/
def mkChip (n : Nat) : CepChipsetDescriptor :=
  { name := "chip" ++ toString n
    i2cAddresses := [n]
    provides := []
    bus := "i2c" }

/-- The registry after registering mkChip 1 up to mkChip n in order into a
fresh CEP. -/
def regSeq (n : Nat) : CEP :=
  (List.range' 1 n).foldl (fun r k => registerChipset r (mkChip k)) ⟨[]⟩

/-- A second descriptor claiming address 0x76 (an alternate chipset sharing
the default address, as the spec allows). -/
def BMP280_Chip : CepChipsetDescriptor :=
  { name := "bmp280"
    i2cAddresses := [0x76, 0x77]
    provides := ["temperature", "pressure"]
    bus := "i2c" }

/-- A descriptor whose declared bus kind is spi but which lists an i2c
address, allowed by the plugin interface (cep.h line 32). -/
def SpiProbe : CepChipsetDescriptor :=
  { name := "altimeter"
    i2cAddresses := [0x76]
    provides := ["altitude"]
    bus := "spi" }

/-- A non-ESP32 platform (plain Arduino board). -/
def P0 : Platform :=
  { esp32 := false, cpuFreqMHz := 0, heapSize := 0, flashChipSize := 0,
    efuseMac := 0, wifiMac := [], board := "UNO",
    fwMajor := 0, fwMinor := 0, fwPatch := 0 }

-- ── C1 ────────────────────────────────────────────────────────────────────────

/-- C1: registering beyond MAX_CHIPSETS is silently dropped by the code,
not reported: the 17th registerChipset call on a full registry returns the
registry unchanged (the C++ function returns void, so there is no error
channel at all), while the first 16 registrations stay intact and remain
queryable through the registry's address query. -/
theorem C1_overflow_silently_dropped :
    registerChipset (regSeq 16) (mkChip 17) = regSeq 16 ∧
    regSeq 17 = regSeq 16 ∧
    (regSeq 17).chipsets = (List.range' 1 16).map mkChip ∧
    matchesAt (regSeq 17).chipsets 16 = [mkChip 16] ∧
    matchesAt (regSeq 17).chipsets 17 = [] := by
  refine ⟨rfl, rfl, rfl, rfl, rfl⟩

-- ── C2 ────────────────────────────────────────────────────────────────────────

/-- C2: the sensors string is the comma join of the fragments ordered with
the outer level in scan order and the inner level in registration order;
in particular two registered descriptors that both list address 0x76 yield,
on a scan result containing 0x76, exactly the two fragments in registration
order. -/
theorem C2_resolve_order (d1 d2 : CepChipsetDescriptor)
    (chips : List CepChipsetDescriptor) (found : List Nat)
    (h1 : (d1.i2cAddresses.filter fun k => k == 118).length = 1)
    (h2 : (d2.i2cAddresses.filter fun k => k == 118).length = 1) :
    sensorsString chips found = commaJoin (resolveList chips found) ∧
    resolveList [d1, d2] [118] = [renderFragment d1 118, renderFragment d2 118] := by
  refine ⟨sensorsString_eq chips found, ?_⟩
  obtain ⟨k1, hk1⟩ := List.length_eq_one.mp h1
  obtain ⟨k2, hk2⟩ := List.length_eq_one.mp h2
  simp [resolveList, hk1, hk2]

/-- Witness for C2 at the shipped bme280 descriptor and a second descriptor
sharing address 0x76. -/
theorem C2_witness :
    sensorsString [BME280_Chip, BMP280_Chip] [118] =
      commaJoin (resolveList [BME280_Chip, BMP280_Chip] [118]) ∧
    resolveList [BME280_Chip, BMP280_Chip] [118] =
      [renderFragment BME280_Chip 118, renderFragment BMP280_Chip 118] :=
  C2_resolve_order BME280_Chip BMP280_Chip [BME280_Chip, BMP280_Chip] [118]
    (by decide) (by decide)

-- ── C3 ────────────────────────────────────────────────────────────────────────

/-- C3: a matched descriptor whose describe hook returns a non-empty string
for bus 0 and the matched address is rendered exactly as that string, and a
hook returning the empty string falls back to the generic fragment for the
same match. -/
theorem C3_custom_hook (chip : CepChipsetDescriptor) (addr : Nat) :
    (chip.describe 0 addr ≠ "" → renderFragment chip addr = chip.describe 0 addr) ∧
    (chip.describe 0 addr = "" → renderFragment chip addr = genericFragment chip addr) := by
  constructor
  · intro h
    have hpos : 0 < (chip.describe 0 addr).length := (strLenPos_iff _).mpr h
    simp [renderFragment, hpos]
  · intro h
    simp [renderFragment, h]

/-- Witness for C3: the ssd1306 hook output is used verbatim, and the
bme280 descriptor (default hook, empty string) falls back to the generic
fragment. -/
theorem C3_witness :
    renderFragment SSD1306_Chip 60 = SSD1306_Chip.describe 0 60 ∧
    renderFragment BME280_Chip 118 = genericFragment BME280_Chip 118 :=
  ⟨(C3_custom_hook SSD1306_Chip 60).1 (by decide),
   (C3_custom_hook BME280_Chip 118).2 rfl⟩

-- ── C4 ────────────────────────────────────────────────────────────────────────

/-- C4 counterexample: a matched descriptor whose declared bus kind is spi
is rendered with the hardcoded bus string of cep.h line 177, and its own
bus kind appears nowhere in the generic fragment, refuting the claim that
the fragment contains the descriptor's bus kind. -/
theorem C4_counterexample :
    SpiProbe.bus = "spi" ∧
    ¬ strHas (genericFragment SpiProbe 118) ("spi") ∧
    strHas (genericFragment SpiProbe 118) ("\"bus\":\"i2c\"") := by
  refine ⟨rfl, fun h => ?_, ?_⟩
  · have hb := occursIn_of_strHas _ _ h
    revert hb
    decide
  · exact ⟨"\x7b\"type\":\"sensor\",\"chipset\":\"altimeter\",",
      ",\"bus_id\":0,\"address\":\"0x76\",\"provides\":[\"altitude\"]\x7d", by decide⟩

/-- C4 amended: the generic fragment contains the type tag sensor, the
descriptor's name, the fixed bus kind i2c of the scanned bus together with
bus id 0 (the code hardcodes both at cep.h line 177 instead of using the
descriptor's bus field), the address in 0x-prefixed lowercase two-digit
hexadecimal, and the full provides list in declared order. -/
theorem C4_generic_content (chip : CepChipsetDescriptor) (addr : Nat)
    (h : addr < 127) :
    strHas (genericFragment chip addr) ("\"type\":\"sensor\"") ∧
    strHas (genericFragment chip addr) ("\"chipset\":\"" ++ chip.name ++ "\"") ∧
    strHas (genericFragment chip addr) ("\"bus\":\"i2c\",\"bus_id\":0") ∧
    strHas (genericFragment chip addr) ("\"address\":\"0x" ++ hex2 addr ++ "\"") ∧
    strHas (genericFragment chip addr)
      ("\"provides\":[" ++ commaJoin (chip.provides.map fun pr => "\"" ++ pr ++ "\"") ++ "]") ∧
    (hex2 addr).length = 2 ∧
    ∀ c ∈ (hex2 addr).data, c ∈ ("0123456789abcdef").data := by
  refine ⟨?_, ?_, ?_, ?_, ?_, rfl, ?_⟩
  · rw [genericFragment]
    apply strHas_append_right; apply strHas_append_right; apply strHas_append_right
    apply strHas_append_right; apply strHas_append_right; apply strHas_append_right
    exact ⟨"\x7b", "", by decide⟩
  · rw [genericFragment]
    apply strHas_append_right; apply strHas_append_right; apply strHas_append_right
    apply strHas_append_right; apply strHas_append_right; apply strHas_append_left
    refine ⟨",", "", ?_⟩
    rw [show (",\"chipset\":\"" : String) = "," ++ "\"chipset\":\"" from by decide]
    simp only [← String.append_assoc, String.append_empty]
  · rw [genericFragment]
    apply strHas_append_right; apply strHas_append_right; apply strHas_append_right
    apply strHas_append_right; apply strHas_append_left
    exact ⟨",", "", by decide⟩
  · rw [genericFragment]
    apply strHas_append_right; apply strHas_append_right; apply strHas_append_right
    apply strHas_append_left
    refine ⟨",", "", ?_⟩
    rw [hex0x,
      show (",\"address\":\"" : String) = "," ++ "\"address\":\"" from by decide,
      show ("\"address\":\"0x" : String) = "\"address\":\"" ++ "0x" from by decide]
    simp only [← String.append_assoc, String.append_empty]
  · rw [genericFragment, providesLoop_eq]
    refine ⟨"\x7b\"type\":\"sensor\"" ++
      (",\"chipset\":\"" ++ chip.name ++ "\"") ++
      ",\"bus\":\"i2c\",\"bus_id\":0" ++
      (",\"address\":\"" ++ hex0x addr ++ "\"") ++ ",", "\x7d", ?_⟩
    rw [show (",\"provides\":[" : String) = "," ++ "\"provides\":[" from by decide,
      show ("]\x7d" : String) = "]" ++ "\x7d" from by decide, commaJoin]
    simp only [← String.append_assoc, String.append_empty]
  · intro c hc
    have hmem : c = hexDigit (addr / 16 % 16) ∨ c = hexDigit (addr % 16) := by
      simpa [hex2] using hc
    rcases hmem with hc | hc <;> subst hc
    · exact hexDigit_mem_lower _ (Nat.mod_lt _ (by norm_num))
    · exact hexDigit_mem_lower _ (Nat.mod_lt _ (by norm_num))

/-- Witness for C4 at the shipped mpu6050 descriptor and address 0x68. -/
theorem C4_witness :
    strHas (genericFragment MPU6050_Chip 104) ("\"type\":\"sensor\"") ∧
    strHas (genericFragment MPU6050_Chip 104) ("\"chipset\":\"" ++ MPU6050_Chip.name ++ "\"") ∧
    strHas (genericFragment MPU6050_Chip 104) ("\"bus\":\"i2c\",\"bus_id\":0") ∧
    strHas (genericFragment MPU6050_Chip 104) ("\"address\":\"0x" ++ hex2 104 ++ "\"") ∧
    strHas (genericFragment MPU6050_Chip 104)
      ("\"provides\":[" ++ commaJoin (MPU6050_Chip.provides.map fun pr => "\"" ++ pr ++ "\"") ++ "]") ∧
    (hex2 104).length = 2 ∧
    ∀ c ∈ (hex2 104).data, c ∈ ("0123456789abcdef").data :=
  C4_generic_content MPU6050_Chip 104 (by decide)

-- ── C5 ────────────────────────────────────────────────────────────────────────

set_option maxRecDepth 4000 in
/-- C5: the top-level entries do appear in the fixed order compute, bus
summary, sensor fragments (omitted when empty), GPIO, ADC, network, but the
document is not well formed: cep.h line 60 appends a comma after the
compute entry and cep.h line 158 prepends another, so every generated
document contains a double comma between the compute entry and the bus
summary, which is not valid JSON. -/
theorem C5_double_comma :
    getCapabilitiesJSON P0 ⟨[]⟩ (fun _ => false) =
      "\x7b\"device\":\x7b\"id\":\"arduino-UNO\",\"class\":\"microcontroller\"," ++
      "\"transport\":\"serial\",\"model\":\"UNO\",\"firmware\":\"0.0.0\"\x7d," ++
      "\"capabilities\":[\x7b\"type\":\"compute\"\x7d,,\x7b\"type\":\"i2c\"," ++
      "\"buses\":[\x7b\"id\":0,\"sda\":21,\"scl\":22,\"freq_hz\":100000," ++
      "\"devices_found\":[]\x7d]\x7d,\x7b\"type\":\"gpio\"\x7d]\x7d" ∧
    occursIn (",,").data (getCapabilitiesJSON P0 ⟨[]⟩ (fun _ => false)).data = true := by
  constructor
  · decide
  · decide

-- ── C6 ────────────────────────────────────────────────────────────────────────

/-- C6: the scan probes exactly the addresses 1 to 126 in ascending order
and its found list is exactly the acknowledging addresses of that range,
strictly within range, strictly ascending, with no duplicates. -/
theorem C6_scan_properties (ack : Nat → Bool) :
    (∀ a, a ∈ scanAddrs ↔ 1 ≤ a ∧ a ≤ 126) ∧
    scanFound ack = scanAddrs.filter ack ∧
    (∀ a, a ∈ scanFound ack ↔ 1 ≤ a ∧ a ≤ 126 ∧ ack a = true) ∧
    List.Pairwise (· < ·) (scanFound ack) ∧
    (scanFound ack).Nodup := by
  have hpair : List.Pairwise (· < ·) (scanFound ack) := by
    rw [scanFound_eq]
    exact List.Pairwise.filter _ (List.pairwise_lt_range' 1 126)
  refine ⟨?_, scanFound_eq ack, ?_, hpair, ?_⟩
  · intro a
    rw [scanAddrs, List.mem_range'_1]
    omega
  · intro a
    rw [scanFound_eq, List.mem_filter, scanAddrs, List.mem_range'_1]
    constructor
    · rintro ⟨⟨h1, h2⟩, h3⟩
      exact ⟨h1, by omega, h3⟩
    · rintro ⟨h1, h2, h3⟩
      exact ⟨⟨h1, by omega⟩, h3⟩
  · exact hpair.imp Nat.ne_of_lt

/-- Witness for C6 at a probe that acknowledges only address 0x76. -/
theorem C6_witness :
    (∀ a, a ∈ scanAddrs ↔ 1 ≤ a ∧ a ≤ 126) ∧
    scanFound (fun a => a == 118) = scanAddrs.filter (fun a => a == 118) ∧
    (∀ a, a ∈ scanFound (fun a => a == 118) ↔
      1 ≤ a ∧ a ≤ 126 ∧ (a == 118) = true) ∧
    List.Pairwise (· < ·) (scanFound (fun a => a == 118)) ∧
    (scanFound (fun a => a == 118)).Nodup :=
  C6_scan_properties (fun a => a == 118)

-- ── C7 ────────────────────────────────────────────────────────────────────────

/-- C7 counterexample: with the bme280 descriptor and a second descriptor
both claiming 0x76 registered, a scan result of one address yields two
fragments, refuting the claimed bound of sensor fragment count by scanned
address count. -/
theorem C7_counterexample :
    (scanFound (fun a => a == 118)).length = 1 ∧
    (resolveList [BME280_Chip, BMP280_Chip] (scanFound (fun a => a == 118))).length = 2 := by
  constructor
  · decide
  · decide

/-- C7 amended: a scanned address contained in no registered descriptor's
address set contributes no fragment and may be removed from the scan result
without changing the output; the total fragment count equals the sum over
scanned addresses of the number of matching descriptor address-list
entries, so it is bounded by the scanned address count whenever every
scanned address has at most one match, but can exceed it when several
descriptors claim the same address. -/
theorem C7_no_match_no_fragment (chips : List CepChipsetDescriptor)
    (found₁ found₂ : List Nat) (a : Nat)
    (h : ∀ c ∈ chips, a ∉ c.i2cAddresses) :
    resolveList chips [a] = [] ∧
    resolveList chips (found₁ ++ a :: found₂) = resolveList chips (found₁ ++ found₂) ∧
    (∀ found : List Nat, (resolveList chips found).length =
      (found.map fun x => (matchesAt chips x).length).sum) ∧
    (∀ found : List Nat, (∀ x ∈ found, (matchesAt chips x).length ≤ 1) →
      (resolveList chips found).length ≤ found.length) := by
  have hinner : ∀ c ∈ chips, (c.i2cAddresses.filter fun k => k == a) = [] := by
    intro c hc
    rw [List.filter_eq_nil_iff]
    intro k hk
    simp only [beq_iff_eq]
    intro hka
    exact h c hc (hka ▸ hk)
  have hsingle : resolveList chips [a] = [] := by
    simp only [resolveList, List.flatMap_cons, List.flatMap_nil, List.append_nil]
    rw [List.flatMap_eq_nil_iff]
    intro c hc
    rw [hinner c hc]
    rfl
  have hlen : ∀ found : List Nat, (resolveList chips found).length =
      (found.map fun x => (matchesAt chips x).length).sum := by
    intro found
    simp [resolveList, matchesAt, List.length_flatMap, Function.comp_def]
  refine ⟨hsingle, ?_, hlen, ?_⟩
  · simp only [resolveList, List.flatMap_append, List.flatMap_cons]
    have : (chips.flatMap fun c =>
        ((c.i2cAddresses.filter fun k => k == a).map fun _ => renderFragment c a)) = [] := by
      rw [List.flatMap_eq_nil_iff]
      intro c hc
      rw [hinner c hc]
      rfl
    rw [this]
    simp
  · intro found hb
    rw [hlen found]
    calc ((found.map fun x => (matchesAt chips x).length).sum)
        ≤ (found.map fun x => (matchesAt chips x).length).length * 1 := by
          apply List.sum_le_card_nsmul
          intro y hy
          obtain ⟨x, hx, rfl⟩ := List.mem_map.mp hy
          exact hb x hx
      _ = found.length := by simp

/-- Witness for C7: address 0x10 matches no registered descriptor and
contributes nothing. -/
theorem C7_witness :
    resolveList [BME280_Chip] [16] = [] ∧
    resolveList [BME280_Chip] ([] ++ 16 :: [118]) = resolveList [BME280_Chip] ([] ++ [118]) :=
  ⟨(C7_no_match_no_fragment [BME280_Chip] [] [118] 16 (by decide)).1,
   (C7_no_match_no_fragment [BME280_Chip] [] [118] 16 (by decide)).2.1⟩

-- ── C8 ────────────────────────────────────────────────────────────────────────

/-- C8: the devices_found list contains the quoted hex form of every
acknowledged address, independent of the registry; in the claim's scenario
(scan finds 0x10 and 0x76, only the bme280 descriptor registered) resolve
yields exactly one fragment while the bus summary lists both addresses. -/
theorem C8_devices_independent (ack : Nat → Bool) (a : Nat)
    (h : a ∈ scanFound ack) :
    strHas (devicesStr ack) ("\"" ++ hex0x a ++ "\"") ∧
    devicesStr (fun x => x == 16 || x == 118) = "[\"0x10\",\"0x76\"]" ∧
    resolveList [BME280_Chip] (scanFound (fun x => x == 16 || x == 118)) =
      [renderFragment BME280_Chip 118] := by
  refine ⟨?_, by decide, by decide⟩
  rw [devicesStr_eq]
  apply strHas_append_right
  apply strHas_append_left
  rw [commaJoin]
  exact joinAux_has _ _ (List.mem_map.mpr ⟨a, h, rfl⟩) "" true

/-- Witness for C8 at the scenario probe and the unmatched address 0x10. -/
theorem C8_witness :
    strHas (devicesStr (fun x => x == 16 || x == 118)) ("\"" ++ hex0x 16 ++ "\"") ∧
    devicesStr (fun x => x == 16 || x == 118) = "[\"0x10\",\"0x76\"]" ∧
    resolveList [BME280_Chip] (scanFound (fun x => x == 16 || x == 118)) =
      [renderFragment BME280_Chip 118] :=
  C8_devices_independent (fun x => x == 16 || x == 118) 16 (by decide)

-- ── C9 ────────────────────────────────────────────────────────────────────────

/-- A chipset descriptor whose describe hook may fault: the hook's effect
is an Except value, the error case modelling a C++ exception or fault
raised inside the virtual describe call of an independently authored
plugin. -/
structure FallibleChipsetDescriptor where
  name : String
  i2cAddresses : List Nat
  provides : List String
  bus : String
  describeE : Nat → Nat → Except String String

/-- The plain-descriptor view of a fallible descriptor, used to state what
the generic fallback fragment for a match would be. -/
def toPlain (c : FallibleChipsetDescriptor) : CepChipsetDescriptor :=
  { name := c.name
    i2cAddresses := c.i2cAddresses
    provides := c.provides
    bus := c.bus }

/-- The per-match rendering of cep.h lines 168-187 under a possibly
faulting hook: the call at line 168 is not wrapped in any handler, so in
the embedding the fault propagates through bind instead of falling back to
the generic fragment. -/
def renderFragmentE (chip : FallibleChipsetDescriptor) (addr : Nat) :
    Except String String := do
  let custom ← chip.describeE 0 addr
  if custom.length > 0 then pure custom else pure (genericFragment (toPlain chip) addr)

/-- The matching loops of cep.h lines 162-194 under a possibly faulting
hook: the loops contain no handler either, so the first fault aborts the
whole fragment collection. -/
def resolveListE (chips : List FallibleChipsetDescriptor) (found : List Nat) :
    Except String (List String) :=
  found.foldlM (fun acc a =>
    chips.foldlM (fun acc2 c =>
      (c.i2cAddresses.filter fun k => k == a).foldlM (fun acc3 _ => do
        let s ← renderFragmentE c a
        pure (acc3 ++ [s])) acc2) acc) []

/-- A registered plugin whose describe hook faults when invoked. -/
def FaultyChip : FallibleChipsetDescriptor :=
  { name := "faulty"
    i2cAddresses := [0x3C]
    provides := ["display"]
    bus := "i2c"
    describeE := fun _ _ => Except.error "hook fault" }

/-- C9: a faulting describe hook aborts the fragment collection: the
resolver embedding faithful to the handler-free call site propagates the
fault, yields no fragment list at all, and in particular does not fall back
to the generic fragment for the match. -/
theorem C9_fault_propagates :
    resolveListE [FaultyChip] [60] = Except.error "hook fault" ∧
    (∀ frags : List String, resolveListE [FaultyChip] [60] ≠ Except.ok frags) ∧
    resolveListE [FaultyChip] [60] ≠
      Except.ok [genericFragment (toPlain FaultyChip) 60] := by
  refine ⟨rfl, ?_, ?_⟩
  · intro frags hok
    rw [show resolveListE [FaultyChip] [60] = Except.error "hook fault" from rfl] at hok
    cases hok
  · intro hok
    rw [show resolveListE [FaultyChip] [60] = Except.error "hook fault" from rfl] at hok
    cases hok

-- ── C10 ───────────────────────────────────────────────────────────────────────

/-- C10: every write into the 64-entry found buffer is in bounds exactly
when at most 64 probed addresses acknowledge, and as soon as more than 64
acknowledge some write index reaches the capacity and is out of bounds. -/
theorem C10_write_bounds (ack : Nat → Bool) :
    ((∀ i ∈ scanWrites ack, i < foundBufCapacity) ↔
      (scanFound ack).length ≤ foundBufCapacity) ∧
    ((scanFound ack).length > foundBufCapacity →
      ∃ i ∈ scanWrites ack, foundBufCapacity ≤ i) := by
  rw [scanWrites_eq]
  constructor
  · constructor
    · intro hall
      by_contra hgt
      push_neg at hgt
      have hmem : foundBufCapacity ∈ List.range (scanFound ack).length :=
        List.mem_range.mpr hgt
      exact absurd (hall _ hmem) (lt_irrefl _)
    · intro hle i hi
      have := List.mem_range.mp hi
      omega
  · intro hgt
    exact ⟨foundBufCapacity, List.mem_range.mpr (by omega), le_refl _⟩

set_option maxRecDepth 4000 in
/-- Witness for C10 at a probe where every address acknowledges: 126
acknowledgements exceed the 64-entry capacity and some write index is out
of bounds. -/
theorem C10_witness :
    ∃ i ∈ scanWrites (fun _ => true), foundBufCapacity ≤ i :=
  (C10_write_bounds (fun _ => true)).2 (by decide)
